import Mathlib

/-!
Shallow embedding of the `hey_listen` event-dispatch core.

The crate's `src/lib.rs` only re-exports the dispatchers from its `sync`
module (whose files are not part of the sources given here), so the
dispatch core itself is modelled from the specification, faithful to its
words; the event and listener types used by the concrete scenarios are
translated from `tests/listener_test.rs`.

Conventions of the model:
* an event key and a dispatched event share one type `K`, as in the crate,
  where `dispatch_event(&event)` routes by the event value itself;
* a listener handle is a `Nat` identifier; the weak-reference store is a
  function `Nat → Option S` (`none` = the owning side dropped the listener);
* a listener's `on_event` is a function `Nat → K → S → S × Option req`,
  giving the next internal state and the returned dispatch request
  (`none` = continue);
* the registry is an association list `List (K × seq)` standing for the
  hash map: lookup compares the stored key's hash with the probe's hash
  and then the keys by the key type's equality, as a hash table does.
-/

namespace HeyListen

/-- Modelled from the spec: the capabilities the event-key type supplies —
an equality and a hash (`Hash`/`PartialEq` of the Rust key type). -/
structure KeyOps (K : Type) where
  beq : K → K → Bool
  hash : K → Nat

/-- Modelled from the spec: the request value a listener of the sequential or
priority dispatcher returns — stop listening to this event key, or stop
propagation to the remaining listeners of this dispatch round
(`None` = continue is the `Option.none` around it). -/
inductive SyncDispatcherRequest where
  | StopListening
  | StopPropagation
deriving DecidableEq, Repr

/-- Modelled from the spec: the request value a listener of the parallel
dispatcher returns — only stop listening exists, there is no cross-listener
stop-propagation in the parallel contract. -/
inductive ParallelDispatcherRequest where
  | StopListening
deriving DecidableEq, Repr

/-- Updating one listener's internal state in the store of listener objects. -/
def updateStore {S : Type} (st : Nat → Option S) (h : Nat) (s : S) : Nat → Option S :=
  fun h' => if h' = h then some s else st h'

/-- Hash-map lookup over the association-list model: the first entry whose
stored key has the probe's hash and is equal to the probe under the key
equality. -/
def findEntry {K V : Type} (ko : KeyOps K) (k : K) : List (K × V) → Option V
  | [] => none
  | e :: rest =>
    if ko.hash e.1 == ko.hash k && ko.beq e.1 k then some e.2
    else findEntry ko k rest

/-- Hash-map insert-or-update over the association-list model: rewrite the
value of the first entry matching the key, or append a fresh entry. -/
def updateEntry {K V : Type} (ko : KeyOps K) (k : K) (f : Option V → V) :
    List (K × V) → List (K × V)
  | [] => [(k, f none)]
  | e :: rest =>
    if ko.hash e.1 == ko.hash k && ko.beq e.1 k then (e.1, f (some e.2)) :: rest
    else e :: updateEntry ko k f rest

namespace EventDispatcher

/-- Modelled from the spec: `EventDispatcher::add_listener` appends a
non-owning handle to the key's ordered sequence (insertion order). -/
def add_listener {K : Type} (ko : KeyOps K) (k : K) (h : Nat)
    (reg : List (K × List Nat)) : List (K × List Nat) :=
  updateEntry ko k (fun v => v.getD [] ++ [h]) reg

/-- Modelled from the spec: the sequential delivery walk. Each handle in
order is resolved against the store; a dead handle is pruned and the walk
continues; a live one is invoked with exclusive access and its request is
applied: stop-listening drops its handle, stop-propagation ends the walk at
once leaving every remaining handle (the stopper included) registered and
untouched. Returns the surviving handle sequence, the updated store, and
the trace of invoked handles in delivery order. -/
def deliver {K S : Type} (f : Nat → K → S → S × Option SyncDispatcherRequest)
    (ev : K) : List Nat → (Nat → Option S) →
    List Nat × ((Nat → Option S) × List Nat)
  | [], st => ([], st, [])
  | h :: hs, st =>
    match st h with
    | none => deliver f ev hs st
    | some s =>
      let st' := updateStore st h (f h ev s).1
      match (f h ev s).2 with
      | none =>
        let x := deliver f ev hs st'
        (h :: x.1, x.2.1, h :: x.2.2)
      | some .StopListening =>
        let x := deliver f ev hs st'
        (x.1, x.2.1, h :: x.2.2)
      | some .StopPropagation => (h :: hs, st', [h])

/-- Modelled from the spec: `EventDispatcher::dispatch_event` — resolve the
event's key in the registry (absent: a no-op), run the sequential delivery
walk on its handle sequence, and write the surviving sequence back. -/
def dispatch_event {K S : Type} (ko : KeyOps K)
    (f : Nat → K → S → S × Option SyncDispatcherRequest) (ev : K)
    (reg : List (K × List Nat)) (st : Nat → Option S) :
    List (K × List Nat) × ((Nat → Option S) × List Nat) :=
  match findEntry ko ev reg with
  | none => (reg, st, [])
  | some hs =>
    let x := deliver f ev hs st
    (updateEntry ko ev (fun _ => x.1) reg, x.2.1, x.2.2)

end EventDispatcher

namespace PriorityEventDispatcher

/-- Modelled from the spec: ordered placement into the descending-priority
sequence — the new `(priority, handle)` pair goes before the first entry of
strictly lower priority, so equal priorities keep their insertion order. -/
def insert_by_priority (p h : Nat) : List (Nat × Nat) → List (Nat × Nat)
  | [] => [(p, h)]
  | e :: rest =>
    if p > e.1 then (p, h) :: e :: rest
    else e :: insert_by_priority p h rest

/-- Modelled from the spec: `PriorityEventDispatcher::add_listener` performs
an ordered placement of the handle with its priority into the key's
sequence. -/
def add_listener {K : Type} (ko : KeyOps K) (k : K) (h p : Nat)
    (reg : List (K × List (Nat × Nat))) : List (K × List (Nat × Nat)) :=
  updateEntry ko k (fun v => insert_by_priority p h (v.getD [])) reg

/-- Modelled from the spec: the priority delivery walk — same mechanics as
the sequential walk, over the descending-priority sequence of
`(priority, handle)` pairs, highest priority first. -/
def deliver {K S : Type} (f : Nat → K → S → S × Option SyncDispatcherRequest)
    (ev : K) : List (Nat × Nat) → (Nat → Option S) →
    List (Nat × Nat) × ((Nat → Option S) × List Nat)
  | [], st => ([], st, [])
  | e :: hs, st =>
    match st e.2 with
    | none => deliver f ev hs st
    | some s =>
      let st' := updateStore st e.2 (f e.2 ev s).1
      match (f e.2 ev s).2 with
      | none =>
        let x := deliver f ev hs st'
        (e :: x.1, x.2.1, e.2 :: x.2.2)
      | some .StopListening =>
        let x := deliver f ev hs st'
        (x.1, x.2.1, e.2 :: x.2.2)
      | some .StopPropagation => (e :: hs, st', [e.2])

/-- Modelled from the spec: `PriorityEventDispatcher::dispatch_event` —
resolve the event's key (absent: a no-op), walk the key's sequence
highest-priority first, and write the surviving sequence back. -/
def dispatch_event {K S : Type} (ko : KeyOps K)
    (f : Nat → K → S → S × Option SyncDispatcherRequest) (ev : K)
    (reg : List (K × List (Nat × Nat))) (st : Nat → Option S) :
    List (K × List (Nat × Nat)) × ((Nat → Option S) × List Nat) :=
  match findEntry ko ev reg with
  | none => (reg, st, [])
  | some hs =>
    let x := deliver f ev hs st
    (updateEntry ko ev (fun _ => x.1) reg, x.2.1, x.2.2)

end PriorityEventDispatcher

namespace ParallelEventDispatcher

/-- Whether a collected parallel request keeps the handle registered
(everything but stop-listening does). -/
def keeps : Option ParallelDispatcherRequest → Bool
  | some .StopListening => false
  | none => true

/-- Modelled from the spec: `ParallelEventDispatcher::add_listener` appends
a non-owning handle to the key's sequence (order is irrelevant to the
parallel contract). -/
def add_listener {K : Type} (ko : KeyOps K) (k : K) (h : Nat)
    (reg : List (K × List Nat)) : List (K × List Nat) :=
  updateEntry ko k (fun v => v.getD [] ++ [h]) reg

/-- Modelled from the spec: the parallel round — every live handle is
resolved and invoked exactly once, each with exclusive access to its own
listener, a dead handle contributes no unit of work and is pruned; the
returned requests are collected per handle and only applied after the
round. The functional model sequences the independent units and returns
the collected `(handle, request)` results with the updated store. -/
def deliver {K S : Type}
    (f : Nat → K → S → S × Option ParallelDispatcherRequest) (ev : K) :
    List Nat → (Nat → Option S) →
    List (Nat × Option ParallelDispatcherRequest) × (Nat → Option S)
  | [], st => ([], st)
  | h :: hs, st =>
    match st h with
    | none => deliver f ev hs st
    | some s =>
      let x := deliver f ev hs (updateStore st h (f h ev s).1)
      ((h, (f h ev s).2) :: x.1, x.2)

/-- Modelled from the spec: `ParallelEventDispatcher::dispatch_event` —
resolve the event's key (absent: a no-op), run the parallel round over the
key's handles, then apply every collected stop-listening removal and write
the surviving sequence back. The trace lists the handles that were
invoked. -/
def dispatch_event {K S : Type} (ko : KeyOps K)
    (f : Nat → K → S → S × Option ParallelDispatcherRequest) (ev : K)
    (reg : List (K × List Nat)) (st : Nat → Option S) :
    List (K × List Nat) × ((Nat → Option S) × List Nat) :=
  match findEntry ko ev reg with
  | none => (reg, st, [])
  | some hs =>
    let x := deliver f ev hs st
    let survivors := (x.1.filter fun r => keeps r.2).map (·.1)
    (updateEntry ko ev (fun _ => survivors) reg, x.2, x.1.map (·.1))

end ParallelEventDispatcher

/-- The event type of `tests/listener_test.rs` (inner test
`register_one_listener_for_one_event_variant_but_dispatch_two_variants`):
two variants each carrying an `i32` payload. -/
inductive TEvent where
  | EventA : Int → TEvent
  | EventB : Int → TEvent
deriving DecidableEq, Repr

/-- The test's `PartialEq for Event`: equality of discriminants only — the
payload is ignored. -/
def teq : TEvent → TEvent → Bool
  | .EventA _, .EventA _ => true
  | .EventB _, .EventB _ => true
  | _, _ => false

/-- The test's `Hash for Event`: the hasher is fed nothing, so every key
hashes alike; modelled as the constant hash. -/
def thash : TEvent → Nat := fun _ => 0

/-- The key capabilities of the test's payload-carrying `Event` type. -/
def tkeyops : KeyOps TEvent := ⟨teq, thash⟩

/-- The test listener's state: its `received_event_a` and
`received_event_b` flags. -/
structure TListenerState where
  received_event_a : Bool
  received_event_b : Bool
deriving DecidableEq, Repr

/-- The test listener's `on_event`: set the flag of the received variant.
The test's body returns no request, modelled as the continue request
`none`. -/
def tOnEvent : Nat → TEvent → TListenerState →
    TListenerState × Option SyncDispatcherRequest
  | _, .EventA _, s => (⟨true, s.received_event_b⟩, none)
  | _, .EventB _, s => (⟨s.received_event_a, true⟩, none)

/-- The test listener's `on_event` as a parallel listener (same flag
updates, no request). -/
def tOnEventPar : Nat → TEvent → TListenerState →
    TListenerState × Option ParallelDispatcherRequest
  | _, .EventA _, s => (⟨true, s.received_event_b⟩, none)
  | _, .EventB _, s => (⟨s.received_event_a, true⟩, none)

/-- A store owning exactly the test listener, handle `0`, both flags
unset. -/
def tstore : Nat → Option TListenerState :=
  fun h => if h = 0 then some ⟨false, false⟩ else none

/-- The key capabilities of a plain `Nat` event key: its equality and the
identity hash. -/
def natKeyOps : KeyOps Nat := ⟨fun a b => a == b, id⟩

/-- A listener behavior over `Nat` events that counts deliveries and always
returns the continue request. -/
def countBehavior : Nat → Nat → Nat → Nat × Option SyncDispatcherRequest :=
  fun _ _ s => (s + 1, none)

/-- The counting behavior as a parallel listener. -/
def countBehaviorPar : Nat → Nat → Nat → Nat × Option ParallelDispatcherRequest :=
  fun _ _ s => (s + 1, none)

/-- A store owning the listener handles `0`, `1` and `2`, each with counter
state `0`. -/
def natStore : Nat → Option Nat := fun h => if h ≤ 2 then some 0 else none

/-- Folding `EventDispatcher.dispatch_event` over a list of events,
threading the registry and the store and concatenating the traces; used to
state properties of every subsequent dispatch. -/
def EventDispatcher.dispatch_many {K S : Type} (ko : KeyOps K)
    (f : Nat → K → S → S × Option SyncDispatcherRequest) :
    List K → List (K × List Nat) → (Nat → Option S) →
    List (K × List Nat) × ((Nat → Option S) × List Nat)
  | [], reg, st => (reg, st, [])
  | e :: es, reg, st =>
    let x := EventDispatcher.dispatch_event ko f e reg st
    let y := EventDispatcher.dispatch_many ko f es x.1 x.2.1
    (y.1, y.2.1, x.2.2 ++ y.2.2)

/-- Folding `PriorityEventDispatcher.dispatch_event` over a list of
events. -/
def PriorityEventDispatcher.dispatch_many {K S : Type} (ko : KeyOps K)
    (f : Nat → K → S → S × Option SyncDispatcherRequest) :
    List K → List (K × List (Nat × Nat)) → (Nat → Option S) →
    List (K × List (Nat × Nat)) × ((Nat → Option S) × List Nat)
  | [], reg, st => (reg, st, [])
  | e :: es, reg, st =>
    let x := PriorityEventDispatcher.dispatch_event ko f e reg st
    let y := PriorityEventDispatcher.dispatch_many ko f es x.1 x.2.1
    (y.1, y.2.1, x.2.2 ++ y.2.2)

/-- Folding `ParallelEventDispatcher.dispatch_event` over a list of
events. -/
def ParallelEventDispatcher.dispatch_many {K S : Type} (ko : KeyOps K)
    (g : Nat → K → S → S × Option ParallelDispatcherRequest) :
    List K → List (K × List Nat) → (Nat → Option S) →
    List (K × List Nat) × ((Nat → Option S) × List Nat)
  | [], reg, st => (reg, st, [])
  | e :: es, reg, st =>
    let x := ParallelEventDispatcher.dispatch_event ko g e reg st
    let y := ParallelEventDispatcher.dispatch_many ko g es x.1 x.2.1
    (y.1, y.2.1, x.2.2 ++ y.2.2)

/-- A value produced by `findEntry` satisfies any predicate holding of
every stored value. -/
lemma findEntry_value {K V : Type} (ko : KeyOps K) (k : K) (P : V → Prop) :
    ∀ reg : List (K × V), (∀ p ∈ reg, P p.2) →
      ∀ v, findEntry ko k reg = some v → P v := by
  intro reg
  induction reg with
  | nil => intro _ v hv; simp [findEntry] at hv
  | cons p rest ih =>
    intro hreg v hv
    by_cases hc : (ko.hash p.1 == ko.hash k && ko.beq p.1 k) = true
    · simp [findEntry, hc] at hv
      exact hv ▸ hreg p (by simp)
    · simp [findEntry, hc] at hv
      exact ih (fun q hq => hreg q (by simp [hq])) v hv

/-- Every value of `updateEntry` with a constant new value satisfies any
predicate holding of the old values and of the new value. -/
lemma updateEntry_const_values {K V : Type} (ko : KeyOps K) (k : K) (w : V)
    (P : V → Prop) :
    ∀ reg : List (K × V), (∀ p ∈ reg, P p.2) → P w →
      ∀ p ∈ updateEntry ko k (fun _ => w) reg, P p.2 := by
  intro reg
  induction reg with
  | nil =>
    intro _ hw p hp
    simp [updateEntry] at hp
    simp [hp, hw]
  | cons q rest ih =>
    intro hreg hw p hp
    by_cases hc : (ko.hash q.1 == ko.hash k && ko.beq q.1 k) = true
    · simp [updateEntry, hc] at hp
      rcases hp with hp | hp
      · simp [hp, hw]
      · exact hreg p (by simp [hp])
    · simp [updateEntry, hc] at hp
      rcases hp with hp | hp
      · exact hp ▸ hreg q (by simp)
      · exact ih (fun r hr => hreg r (by simp [hr])) hw p hp

/-- The sequential walk neither invokes nor retains a handle absent from
the sequence it walks. -/
lemma seq_deliver_avoids {K S : Type}
    (f : Nat → K → S → S × Option SyncDispatcherRequest) (e : K) (a : Nat) :
    ∀ (hs : List Nat) (st : Nat → Option S), a ∉ hs →
      a ∉ (EventDispatcher.deliver f e hs st).1
      ∧ a ∉ (EventDispatcher.deliver f e hs st).2.2 := by
  intro hs
  induction hs with
  | nil => intro st _; simp [EventDispatcher.deliver]
  | cons h rest ih =>
    intro st hna
    simp only [List.mem_cons, not_or] at hna
    cases hst : st h with
    | none => simpa [EventDispatcher.deliver, hst] using ih st hna.2
    | some s =>
      have hx := ih (updateStore st h (f h e s).1) hna.2
      rcases hr : (f h e s).2 with _ | r
      · refine ⟨?_, ?_⟩ <;>
          simp [EventDispatcher.deliver, hst, hr, List.mem_cons, hna.1,
            hx.1, hx.2]
      · cases r <;> refine ⟨?_, ?_⟩ <;>
          simp [EventDispatcher.deliver, hst, hr, List.mem_cons, hna.1,
            hna.2, hx.1, hx.2]

/-- A sequential dispatch neither invokes nor re-registers a handle absent
from every sequence of the registry. -/
lemma seq_dispatch_avoids {K S : Type} (ko : KeyOps K)
    (f : Nat → K → S → S × Option SyncDispatcherRequest) (e : K) (a : Nat)
    (reg : List (K × List Nat)) (st : Nat → Option S)
    (hreg : ∀ p ∈ reg, a ∉ p.2) :
    (∀ p ∈ (EventDispatcher.dispatch_event ko f e reg st).1, a ∉ p.2)
    ∧ a ∉ (EventDispatcher.dispatch_event ko f e reg st).2.2 := by
  unfold EventDispatcher.dispatch_event
  cases hfe : findEntry ko e reg with
  | none => exact ⟨hreg, by simp⟩
  | some hs =>
    have hhs : a ∉ hs := findEntry_value ko e (a ∉ ·) reg hreg hs hfe
    have hd := seq_deliver_avoids f e a hs st hhs
    exact ⟨updateEntry_const_values ko e _ (a ∉ ·) reg hreg hd.1, hd.2⟩

/-- Over any sequence of subsequent sequential dispatches, a handle absent
from every sequence of the registry is never invoked. -/
lemma seq_many_avoids {K S : Type} (ko : KeyOps K)
    (f : Nat → K → S → S × Option SyncDispatcherRequest) (a : Nat) :
    ∀ (es : List K) (reg : List (K × List Nat)) (st : Nat → Option S),
      (∀ p ∈ reg, a ∉ p.2) →
      a ∉ (EventDispatcher.dispatch_many ko f es reg st).2.2 := by
  intro es
  induction es with
  | nil => intro reg st _; simp [EventDispatcher.dispatch_many]
  | cons e es ih =>
    intro reg st hreg
    have hd := seq_dispatch_avoids ko f e a reg st hreg
    have hm := ih (EventDispatcher.dispatch_event ko f e reg st).1
      (EventDispatcher.dispatch_event ko f e reg st).2.1 hd.1
    simp [EventDispatcher.dispatch_many, hd.2, hm]

/-- The priority walk neither invokes nor retains a handle absent from the
handles of the sequence it walks. -/
lemma prio_deliver_avoids {K S : Type}
    (f : Nat → K → S → S × Option SyncDispatcherRequest) (e : K) (a : Nat) :
    ∀ (hs : List (Nat × Nat)) (st : Nat → Option S),
      a ∉ hs.map Prod.snd →
      a ∉ (PriorityEventDispatcher.deliver f e hs st).1.map Prod.snd
      ∧ a ∉ (PriorityEventDispatcher.deliver f e hs st).2.2 := by
  intro hs
  induction hs with
  | nil => intro st _; simp [PriorityEventDispatcher.deliver]
  | cons q rest ih =>
    intro st hna
    simp only [List.map_cons, List.mem_cons, not_or] at hna
    cases hst : st q.2 with
    | none => simpa [PriorityEventDispatcher.deliver, hst] using ih st hna.2
    | some s =>
      have hx := ih (updateStore st q.2 (f q.2 e s).1) hna.2
      rcases hr : (f q.2 e s).2 with _ | r
      · refine ⟨?_, ?_⟩ <;>
          simp [PriorityEventDispatcher.deliver, hst, hr, List.mem_cons,
            hna.1, hx.1, hx.2]
      · cases r <;> refine ⟨?_, ?_⟩ <;>
          simp [PriorityEventDispatcher.deliver, hst, hr, List.mem_cons,
            hna.1, hna.2, hx.1, hx.2]

/-- A priority dispatch neither invokes nor re-registers a handle absent
from every sequence of the registry. -/
lemma prio_dispatch_avoids {K S : Type} (ko : KeyOps K)
    (f : Nat → K → S → S × Option SyncDispatcherRequest) (e : K) (a : Nat)
    (reg : List (K × List (Nat × Nat))) (st : Nat → Option S)
    (hreg : ∀ p ∈ reg, a ∉ p.2.map Prod.snd) :
    (∀ p ∈ (PriorityEventDispatcher.dispatch_event ko f e reg st).1,
      a ∉ p.2.map Prod.snd)
    ∧ a ∉ (PriorityEventDispatcher.dispatch_event ko f e reg st).2.2 := by
  unfold PriorityEventDispatcher.dispatch_event
  cases hfe : findEntry ko e reg with
  | none => exact ⟨hreg, by simp⟩
  | some hs =>
    have hhs : a ∉ hs.map Prod.snd :=
      findEntry_value ko e (a ∉ ·.map Prod.snd) reg hreg hs hfe
    have hd := prio_deliver_avoids f e a hs st hhs
    exact ⟨updateEntry_const_values ko e _ (a ∉ ·.map Prod.snd) reg hreg hd.1,
      hd.2⟩

/-- Over any sequence of subsequent priority dispatches, a handle absent
from every sequence of the registry is never invoked. -/
lemma prio_many_avoids {K S : Type} (ko : KeyOps K)
    (f : Nat → K → S → S × Option SyncDispatcherRequest) (a : Nat) :
    ∀ (es : List K) (reg : List (K × List (Nat × Nat))) (st : Nat → Option S),
      (∀ p ∈ reg, a ∉ p.2.map Prod.snd) →
      a ∉ (PriorityEventDispatcher.dispatch_many ko f es reg st).2.2 := by
  intro es
  induction es with
  | nil => intro reg st _; simp [PriorityEventDispatcher.dispatch_many]
  | cons e es ih =>
    intro reg st hreg
    have hd := prio_dispatch_avoids ko f e a reg st hreg
    have hm := ih (PriorityEventDispatcher.dispatch_event ko f e reg st).1
      (PriorityEventDispatcher.dispatch_event ko f e reg st).2.1 hd.1
    simp [PriorityEventDispatcher.dispatch_many, hd.2, hm]

/-- The parallel round neither invokes a handle absent from the sequence it
works through, nor reports a result for it. -/
lemma par_deliver_avoids {K S : Type}
    (g : Nat → K → S → S × Option ParallelDispatcherRequest) (e : K) (a : Nat) :
    ∀ (hs : List Nat) (st : Nat → Option S), a ∉ hs →
      a ∉ (ParallelEventDispatcher.deliver g e hs st).1.map Prod.fst := by
  intro hs
  induction hs with
  | nil => intro st _; simp [ParallelEventDispatcher.deliver]
  | cons h rest ih =>
    intro st hna
    simp only [List.mem_cons, not_or] at hna
    cases hst : st h with
    | none => simpa [ParallelEventDispatcher.deliver, hst] using ih st hna.2
    | some s =>
      have hx := ih (updateStore st h (g h e s).1) hna.2
      simp [ParallelEventDispatcher.deliver, hst, List.mem_cons, hna.1, hx]

/-- A parallel dispatch neither invokes nor re-registers a handle absent
from every sequence of the registry. -/
lemma par_dispatch_avoids {K S : Type} (ko : KeyOps K)
    (g : Nat → K → S → S × Option ParallelDispatcherRequest) (e : K) (a : Nat)
    (reg : List (K × List Nat)) (st : Nat → Option S)
    (hreg : ∀ p ∈ reg, a ∉ p.2) :
    (∀ p ∈ (ParallelEventDispatcher.dispatch_event ko g e reg st).1, a ∉ p.2)
    ∧ a ∉ (ParallelEventDispatcher.dispatch_event ko g e reg st).2.2 := by
  unfold ParallelEventDispatcher.dispatch_event
  cases hfe : findEntry ko e reg with
  | none => exact ⟨hreg, by simp⟩
  | some hs =>
    have hhs : a ∉ hs := findEntry_value ko e (a ∉ ·) reg hreg hs hfe
    have hd := par_deliver_avoids g e a hs st hhs
    have hsurv : a ∉ ((ParallelEventDispatcher.deliver g e hs st).1.filter
        fun r => ParallelEventDispatcher.keeps r.2).map (·.1) := by
      intro hmem
      rcases List.mem_map.mp hmem with ⟨r, hr, hra⟩
      exact hd (List.mem_map.mpr ⟨r, (List.mem_filter.mp hr).1, hra⟩)
    refine ⟨updateEntry_const_values ko e _ (a ∉ ·) reg hreg hsurv, ?_⟩
    exact hd

/-- Over any sequence of subsequent parallel dispatches, a handle absent
from every sequence of the registry is never invoked. -/
lemma par_many_avoids {K S : Type} (ko : KeyOps K)
    (g : Nat → K → S → S × Option ParallelDispatcherRequest) (a : Nat) :
    ∀ (es : List K) (reg : List (K × List Nat)) (st : Nat → Option S),
      (∀ p ∈ reg, a ∉ p.2) →
      a ∉ (ParallelEventDispatcher.dispatch_many ko g es reg st).2.2 := by
  intro es
  induction es with
  | nil => intro reg st _; simp [ParallelEventDispatcher.dispatch_many]
  | cons e es ih =>
    intro reg st hreg
    have hd := par_dispatch_avoids ko g e a reg st hreg
    have hm := ih (ParallelEventDispatcher.dispatch_event ko g e reg st).1
      (ParallelEventDispatcher.dispatch_event ko g e reg st).2.1 hd.1
    simp [ParallelEventDispatcher.dispatch_many, hd.2, hm]

/-- C8: dispatching an event whose key has no registered listeners is a
no-op that returns normally for the sequential, priority and parallel
dispatchers alike: the registry and the listener store are returned
unchanged and no listener is invoked. Each `dispatch_event` of the model is
a total function, so no error is (or could be) surfaced to the caller. -/
theorem C8_unknown_key_dispatch_is_noop {K S : Type} (ko : KeyOps K)
    (f : Nat → K → S → S × Option SyncDispatcherRequest)
    (g : Nat → K → S → S × Option ParallelDispatcherRequest) (ev : K)
    (reg : List (K × List Nat)) (regP : List (K × List (Nat × Nat)))
    (st : Nat → Option S)
    (h1 : findEntry ko ev reg = none) (h2 : findEntry ko ev regP = none) :
    EventDispatcher.dispatch_event ko f ev reg st = (reg, st, [])
    ∧ PriorityEventDispatcher.dispatch_event ko f ev regP st = (regP, st, [])
    ∧ ParallelEventDispatcher.dispatch_event ko g ev reg st = (reg, st, []) := by
  refine ⟨?_, ?_, ?_⟩ <;>
    simp [EventDispatcher.dispatch_event, PriorityEventDispatcher.dispatch_event,
      ParallelEventDispatcher.dispatch_event, h1, h2]

/-- C8 witness: the no-op at the concrete `Nat` instance with an empty
registry. -/
theorem C8_unknown_key_dispatch_is_noop_witness :
    EventDispatcher.dispatch_event natKeyOps countBehavior 5 [] natStore
      = ([], natStore, [])
    ∧ PriorityEventDispatcher.dispatch_event natKeyOps countBehavior 5 [] natStore
      = ([], natStore, [])
    ∧ ParallelEventDispatcher.dispatch_event natKeyOps countBehaviorPar 5 [] natStore
      = ([], natStore, []) :=
  C8_unknown_key_dispatch_is_noop natKeyOps countBehavior countBehaviorPar 5
    [] [] natStore rfl rfl

/-- C1: register a live listener under key `k` in an empty dispatcher of
each variant; a dispatch of an event equal to `k` under the key equality
(with the matching hash the hash contract guarantees) invokes that listener
exactly once, and a dispatch of an event unequal to `k` never invokes it —
for the sequential, priority and parallel dispatchers. -/
theorem C1_registered_key_delivers_exactly_once {K S : Type} (ko : KeyOps K)
    (k e e' : K) (h0 p : Nat) (s : S)
    (f : Nat → K → S → S × Option SyncDispatcherRequest)
    (g : Nat → K → S → S × Option ParallelDispatcherRequest)
    (st : Nat → Option S)
    (heq : ko.beq k e = true) (hh : ko.hash k = ko.hash e)
    (hne : ko.beq k e' = false) (hlive : st h0 = some s) :
    ((EventDispatcher.dispatch_event ko f e
        (EventDispatcher.add_listener ko k h0 []) st).2.2.count h0 = 1
      ∧ (EventDispatcher.dispatch_event ko f e'
        (EventDispatcher.add_listener ko k h0 []) st).2.2.count h0 = 0)
    ∧ ((PriorityEventDispatcher.dispatch_event ko f e
        (PriorityEventDispatcher.add_listener ko k h0 p []) st).2.2.count h0 = 1
      ∧ (PriorityEventDispatcher.dispatch_event ko f e'
        (PriorityEventDispatcher.add_listener ko k h0 p []) st).2.2.count h0 = 0)
    ∧ ((ParallelEventDispatcher.dispatch_event ko g e
        (ParallelEventDispatcher.add_listener ko k h0 []) st).2.2.count h0 = 1
      ∧ (ParallelEventDispatcher.dispatch_event ko g e'
        (ParallelEventDispatcher.add_listener ko k h0 []) st).2.2.count h0 = 0) := by
  refine ⟨⟨?_, ?_⟩, ⟨?_, ?_⟩, ⟨?_, ?_⟩⟩
  · rcases hr : (f h0 e s).2 with _ | r
    · simp [EventDispatcher.dispatch_event, EventDispatcher.add_listener,
        updateEntry, findEntry, hh, heq, EventDispatcher.deliver, hlive, hr]
    · cases r <;>
        simp [EventDispatcher.dispatch_event, EventDispatcher.add_listener,
          updateEntry, findEntry, hh, heq, EventDispatcher.deliver, hlive, hr]
  · simp [EventDispatcher.dispatch_event, EventDispatcher.add_listener,
      updateEntry, findEntry, hne]
  · rcases hr : (f h0 e s).2 with _ | r
    · simp [PriorityEventDispatcher.dispatch_event,
        PriorityEventDispatcher.add_listener,
        PriorityEventDispatcher.insert_by_priority,
        updateEntry, findEntry, hh, heq, PriorityEventDispatcher.deliver,
        hlive, hr]
    · cases r <;>
        simp [PriorityEventDispatcher.dispatch_event,
          PriorityEventDispatcher.add_listener,
          PriorityEventDispatcher.insert_by_priority,
          updateEntry, findEntry, hh, heq, PriorityEventDispatcher.deliver,
          hlive, hr]
  · simp [PriorityEventDispatcher.dispatch_event,
      PriorityEventDispatcher.add_listener,
      PriorityEventDispatcher.insert_by_priority, updateEntry, findEntry, hne]
  · simp [ParallelEventDispatcher.dispatch_event,
      ParallelEventDispatcher.add_listener, updateEntry, findEntry, hh, heq,
      ParallelEventDispatcher.deliver, hlive]
  · simp [ParallelEventDispatcher.dispatch_event,
      ParallelEventDispatcher.add_listener, updateEntry, findEntry, hne]

/-- C1 witness: the concrete `Nat` instance — listener `0` registered under
key `1`, dispatching `1` (equal) and `2` (unequal). -/
theorem C1_registered_key_delivers_exactly_once_witness :
    ((EventDispatcher.dispatch_event natKeyOps countBehavior 1
        (EventDispatcher.add_listener natKeyOps 1 0 []) natStore).2.2.count 0 = 1
      ∧ (EventDispatcher.dispatch_event natKeyOps countBehavior 2
        (EventDispatcher.add_listener natKeyOps 1 0 []) natStore).2.2.count 0 = 0)
    ∧ ((PriorityEventDispatcher.dispatch_event natKeyOps countBehavior 1
        (PriorityEventDispatcher.add_listener natKeyOps 1 0 7 []) natStore).2.2.count 0 = 1
      ∧ (PriorityEventDispatcher.dispatch_event natKeyOps countBehavior 2
        (PriorityEventDispatcher.add_listener natKeyOps 1 0 7 []) natStore).2.2.count 0 = 0)
    ∧ ((ParallelEventDispatcher.dispatch_event natKeyOps countBehaviorPar 1
        (ParallelEventDispatcher.add_listener natKeyOps 1 0 []) natStore).2.2.count 0 = 1
      ∧ (ParallelEventDispatcher.dispatch_event natKeyOps countBehaviorPar 2
        (ParallelEventDispatcher.add_listener natKeyOps 1 0 []) natStore).2.2.count 0 = 0) :=
  C1_registered_key_delivers_exactly_once natKeyOps 1 1 2 0 7 0
    countBehavior countBehaviorPar natStore rfl rfl rfl rfl

/-- A listener behavior over `Nat` events that counts deliveries and always
requests stop-listening. -/
def stopBehavior : Nat → Nat → Nat → Nat × Option SyncDispatcherRequest :=
  fun _ _ s => (s + 1, some .StopListening)

/-- The stop-listening behavior as a parallel listener. -/
def stopBehaviorPar : Nat → Nat → Nat → Nat × Option ParallelDispatcherRequest :=
  fun _ _ s => (s + 1, some .StopListening)

/-- C2: for each dispatcher variant, a listener whose handler returns
stop-listening is still delivered the event of that very call (the trace of
that dispatch is exactly its handle), but is never invoked again on any
sequence of subsequent dispatches, its handle having been removed from the
key's sequence. -/
theorem C2_stop_listening_removes_handle_for_future {K S : Type}
    (ko : KeyOps K) (k e : K) (h0 p : Nat) (s : S)
    (f : Nat → K → S → S × Option SyncDispatcherRequest)
    (g : Nat → K → S → S × Option ParallelDispatcherRequest)
    (st : Nat → Option S)
    (heq : ko.beq k e = true) (hh : ko.hash k = ko.hash e)
    (hlive : st h0 = some s)
    (hreq : (f h0 e s).2 = some .StopListening)
    (hreqP : (g h0 e s).2 = some .StopListening) :
    ((EventDispatcher.dispatch_event ko f e
        (EventDispatcher.add_listener ko k h0 []) st).2.2 = [h0]
      ∧ ∀ es : List K, h0 ∉ (EventDispatcher.dispatch_many ko f es
          (EventDispatcher.dispatch_event ko f e
            (EventDispatcher.add_listener ko k h0 []) st).1
          (EventDispatcher.dispatch_event ko f e
            (EventDispatcher.add_listener ko k h0 []) st).2.1).2.2)
    ∧ ((PriorityEventDispatcher.dispatch_event ko f e
        (PriorityEventDispatcher.add_listener ko k h0 p []) st).2.2 = [h0]
      ∧ ∀ es : List K, h0 ∉ (PriorityEventDispatcher.dispatch_many ko f es
          (PriorityEventDispatcher.dispatch_event ko f e
            (PriorityEventDispatcher.add_listener ko k h0 p []) st).1
          (PriorityEventDispatcher.dispatch_event ko f e
            (PriorityEventDispatcher.add_listener ko k h0 p []) st).2.1).2.2)
    ∧ ((ParallelEventDispatcher.dispatch_event ko g e
        (ParallelEventDispatcher.add_listener ko k h0 []) st).2.2 = [h0]
      ∧ ∀ es : List K, h0 ∉ (ParallelEventDispatcher.dispatch_many ko g es
          (ParallelEventDispatcher.dispatch_event ko g e
            (ParallelEventDispatcher.add_listener ko k h0 []) st).1
          (ParallelEventDispatcher.dispatch_event ko g e
            (ParallelEventDispatcher.add_listener ko k h0 []) st).2.1).2.2) := by
  have hseq : EventDispatcher.dispatch_event ko f e
      (EventDispatcher.add_listener ko k h0 []) st
      = ([(k, [])], updateStore st h0 (f h0 e s).1, [h0]) := by
    simp [EventDispatcher.dispatch_event, EventDispatcher.add_listener,
      findEntry, updateEntry, EventDispatcher.deliver, hh, heq, hlive, hreq]
  have hprio : PriorityEventDispatcher.dispatch_event ko f e
      (PriorityEventDispatcher.add_listener ko k h0 p []) st
      = ([(k, [])], updateStore st h0 (f h0 e s).1, [h0]) := by
    simp [PriorityEventDispatcher.dispatch_event,
      PriorityEventDispatcher.add_listener,
      PriorityEventDispatcher.insert_by_priority, findEntry, updateEntry,
      PriorityEventDispatcher.deliver, hh, heq, hlive, hreq]
  have hpar : ParallelEventDispatcher.dispatch_event ko g e
      (ParallelEventDispatcher.add_listener ko k h0 []) st
      = ([(k, [])], updateStore st h0 (g h0 e s).1, [h0]) := by
    simp [ParallelEventDispatcher.dispatch_event,
      ParallelEventDispatcher.add_listener, findEntry, updateEntry,
      ParallelEventDispatcher.deliver, ParallelEventDispatcher.keeps,
      hh, heq, hlive, hreqP]
  refine ⟨⟨?_, ?_⟩, ⟨?_, ?_⟩, ⟨?_, ?_⟩⟩
  · rw [hseq]
  · intro es
    rw [hseq]
    exact seq_many_avoids ko f h0 es _ _ (by simp)
  · rw [hprio]
  · intro es
    rw [hprio]
    exact prio_many_avoids ko f h0 es _ _ (by simp)
  · rw [hpar]
  · intro es
    rw [hpar]
    exact par_many_avoids ko g h0 es _ _ (by simp)

/-- C2 witness: the concrete `Nat` instance, with three subsequent
dispatches (twice the registered key, once another). -/
theorem C2_stop_listening_removes_handle_for_future_witness :
    ((EventDispatcher.dispatch_event natKeyOps stopBehavior 1
        (EventDispatcher.add_listener natKeyOps 1 0 []) natStore).2.2 = [0]
      ∧ 0 ∉ (EventDispatcher.dispatch_many natKeyOps stopBehavior [1, 1, 2]
          (EventDispatcher.dispatch_event natKeyOps stopBehavior 1
            (EventDispatcher.add_listener natKeyOps 1 0 []) natStore).1
          (EventDispatcher.dispatch_event natKeyOps stopBehavior 1
            (EventDispatcher.add_listener natKeyOps 1 0 []) natStore).2.1).2.2)
    ∧ (ParallelEventDispatcher.dispatch_event natKeyOps stopBehaviorPar 1
        (ParallelEventDispatcher.add_listener natKeyOps 1 0 []) natStore).2.2
        = [0] :=
  ⟨⟨(C2_stop_listening_removes_handle_for_future natKeyOps 1 1 0 7 0
      stopBehavior stopBehaviorPar natStore rfl rfl rfl rfl rfl).1.1,
    (C2_stop_listening_removes_handle_for_future natKeyOps 1 1 0 7 0
      stopBehavior stopBehaviorPar natStore rfl rfl rfl rfl rfl).1.2 [1, 1, 2]⟩,
   (C2_stop_listening_removes_handle_for_future natKeyOps 1 1 0 7 0
      stopBehavior stopBehaviorPar natStore rfl rfl rfl rfl rfl).2.2.1⟩

/-- A behavior for the stop-propagation scenario: handle `0` requests
stop-propagation on its first delivery (counter state `0`) and continues
afterwards; every other handle always continues. -/
def propOnceBehavior : Nat → Nat → Nat → Nat × Option SyncDispatcherRequest :=
  fun h _ s =>
    (s + 1, if h = 0 then (if s = 0 then some .StopPropagation else none)
            else none)

/-- C3: for the sequential dispatcher (listener `a` registered before `b`
under key `k`) and the priority dispatcher (`a` with strictly higher
priority than `b`, registered after it): when `a` returns stop-propagation,
the dispatch delivers to `a` alone — `b` is not invoked that round — yet
`b` stays registered, and a subsequent matching dispatch on which `a`
continues does invoke `b`. -/
theorem C3_stop_propagation_skips_later_listeners {K S : Type}
    (ko : KeyOps K) (k e e2 : K) (a b pa pb : Nat) (sa sb : S)
    (f : Nat → K → S → S × Option SyncDispatcherRequest)
    (st : Nat → Option S)
    (hkk : ko.beq k k = true)
    (heq : ko.beq k e = true) (hh : ko.hash k = ko.hash e)
    (heq2 : ko.beq k e2 = true) (hh2 : ko.hash k = ko.hash e2)
    (hab : a ≠ b) (hpab : pb < pa)
    (hsa : st a = some sa) (hsb : st b = some sb)
    (hreqA : (f a e sa).2 = some .StopPropagation)
    (hA2 : (f a e2 (f a e sa).1).2 = none) :
    ((EventDispatcher.dispatch_event ko f e
        (EventDispatcher.add_listener ko k b
          (EventDispatcher.add_listener ko k a [])) st).2.2 = [a]
      ∧ (EventDispatcher.dispatch_event ko f e
        (EventDispatcher.add_listener ko k b
          (EventDispatcher.add_listener ko k a [])) st).1 = [(k, [a, b])]
      ∧ b ∈ (EventDispatcher.dispatch_event ko f e2
          (EventDispatcher.dispatch_event ko f e
            (EventDispatcher.add_listener ko k b
              (EventDispatcher.add_listener ko k a [])) st).1
          (EventDispatcher.dispatch_event ko f e
            (EventDispatcher.add_listener ko k b
              (EventDispatcher.add_listener ko k a [])) st).2.1).2.2)
    ∧ ((PriorityEventDispatcher.dispatch_event ko f e
        (PriorityEventDispatcher.add_listener ko k a pa
          (PriorityEventDispatcher.add_listener ko k b pb [])) st).2.2 = [a]
      ∧ (PriorityEventDispatcher.dispatch_event ko f e
        (PriorityEventDispatcher.add_listener ko k a pa
          (PriorityEventDispatcher.add_listener ko k b pb [])) st).1
          = [(k, [(pa, a), (pb, b)])]
      ∧ b ∈ (PriorityEventDispatcher.dispatch_event ko f e2
          (PriorityEventDispatcher.dispatch_event ko f e
            (PriorityEventDispatcher.add_listener ko k a pa
              (PriorityEventDispatcher.add_listener ko k b pb [])) st).1
          (PriorityEventDispatcher.dispatch_event ko f e
            (PriorityEventDispatcher.add_listener ko k a pa
              (PriorityEventDispatcher.add_listener ko k b pb [])) st).2.1).2.2) := by
  have hba : b ≠ a := hab.symm
  have haddS : EventDispatcher.add_listener ko k b
      (EventDispatcher.add_listener ko k a []) = [(k, [a, b])] := by
    simp [EventDispatcher.add_listener, updateEntry, hkk]
  have haddP : PriorityEventDispatcher.add_listener ko k a pa
      (PriorityEventDispatcher.add_listener ko k b pb [])
      = [(k, [(pa, a), (pb, b)])] := by
    simp [PriorityEventDispatcher.add_listener, updateEntry,
      PriorityEventDispatcher.insert_by_priority, hkk, hpab]
  have hd1S : EventDispatcher.dispatch_event ko f e [(k, [a, b])] st
      = ([(k, [a, b])], updateStore st a (f a e sa).1, [a]) := by
    simp [EventDispatcher.dispatch_event, findEntry, updateEntry,
      EventDispatcher.deliver, hh, heq, hsa, hreqA]
  have hd1P : PriorityEventDispatcher.dispatch_event ko f e
      [(k, [(pa, a), (pb, b)])] st
      = ([(k, [(pa, a), (pb, b)])], updateStore st a (f a e sa).1, [a]) := by
    simp [PriorityEventDispatcher.dispatch_event, findEntry, updateEntry,
      PriorityEventDispatcher.deliver, hh, heq, hsa, hreqA]
  have hsa2 : updateStore st a (f a e sa).1 a = some (f a e sa).1 := by
    simp [updateStore]
  have hsb2 : updateStore st a (f a e sa).1 b = some sb := by
    simp [updateStore, hba, hsb]
  refine ⟨⟨?_, ?_, ?_⟩, ⟨?_, ?_, ?_⟩⟩
  · rw [haddS, hd1S]
  · rw [haddS, hd1S]
  · rw [haddS, hd1S]
    rcases hrb : (f b e2 sb).2 with _ | r
    · simp [EventDispatcher.dispatch_event, findEntry, updateEntry,
        EventDispatcher.deliver, hh2, heq2, hsa2, hsb2, hsb, hA2, hrb,
        updateStore, hba]
    · cases r <;>
        simp [EventDispatcher.dispatch_event, findEntry, updateEntry,
          EventDispatcher.deliver, hh2, heq2, hsa2, hsb2, hsb, hA2, hrb,
          updateStore, hba]
  · rw [haddP, hd1P]
  · rw [haddP, hd1P]
  · rw [haddP, hd1P]
    rcases hrb : (f b e2 sb).2 with _ | r
    · simp [PriorityEventDispatcher.dispatch_event, findEntry, updateEntry,
        PriorityEventDispatcher.deliver, hh2, heq2, hsa2, hsb2, hsb, hA2, hrb,
        updateStore, hba]
    · cases r <;>
        simp [PriorityEventDispatcher.dispatch_event, findEntry, updateEntry,
          PriorityEventDispatcher.deliver, hh2, heq2, hsa2, hsb2, hsb, hA2, hrb,
          updateStore, hba]

/-- C3 witness: listeners `0` (stops propagation once) and `1` at the
concrete `Nat` instance, priorities `5` over `3`. -/
theorem C3_stop_propagation_skips_later_listeners_witness :
    (EventDispatcher.dispatch_event natKeyOps propOnceBehavior 1
      (EventDispatcher.add_listener natKeyOps 1 1
        (EventDispatcher.add_listener natKeyOps 1 0 [])) natStore).2.2 = [0]
    ∧ (PriorityEventDispatcher.dispatch_event natKeyOps propOnceBehavior 1
      (PriorityEventDispatcher.add_listener natKeyOps 1 0 5
        (PriorityEventDispatcher.add_listener natKeyOps 1 1 3 [])) natStore).1
        = [(1, [(5, 0), (3, 1)])]
    ∧ 1 ∈ (EventDispatcher.dispatch_event natKeyOps propOnceBehavior 1
        (EventDispatcher.dispatch_event natKeyOps propOnceBehavior 1
          (EventDispatcher.add_listener natKeyOps 1 1
            (EventDispatcher.add_listener natKeyOps 1 0 [])) natStore).1
        (EventDispatcher.dispatch_event natKeyOps propOnceBehavior 1
          (EventDispatcher.add_listener natKeyOps 1 1
            (EventDispatcher.add_listener natKeyOps 1 0 [])) natStore).2.1).2.2 :=
  ⟨(C3_stop_propagation_skips_later_listeners natKeyOps 1 1 1 0 1 5 3 0 0
      propOnceBehavior natStore rfl rfl rfl rfl rfl (by decide) (by decide)
      rfl rfl rfl rfl).1.1,
   (C3_stop_propagation_skips_later_listeners natKeyOps 1 1 1 0 1 5 3 0 0
      propOnceBehavior natStore rfl rfl rfl rfl rfl (by decide) (by decide)
      rfl rfl rfl rfl).2.2.1,
   (C3_stop_propagation_skips_later_listeners natKeyOps 1 1 1 0 1 5 3 0 0
      propOnceBehavior natStore rfl rfl rfl rfl rfl (by decide) (by decide)
      rfl rfl rfl rfl).1.2.2⟩

/-- C4: in the priority dispatcher, listeners `101`, `105` and `103`
registered for one key with priorities 1, 5 and 3 are delivered to in the
order 105, 103, 101 under every one of the six registration orders; and
two listeners sharing one priority are delivered in registration order
(first-registered first). -/
theorem C4_descending_priority_delivery_order :
    (∀ o ∈ [[(1, 101), (5, 105), (3, 103)], [(1, 101), (3, 103), (5, 105)],
        [(5, 105), (1, 101), (3, 103)], [(5, 105), (3, 103), (1, 101)],
        [(3, 103), (1, 101), (5, 105)], [(3, 103), (5, 105), (1, 101)]],
      (PriorityEventDispatcher.dispatch_event natKeyOps countBehavior 9
        (o.foldl (fun r ph =>
          PriorityEventDispatcher.add_listener natKeyOps 9 ph.2 ph.1 r) [])
        (fun _ => some 0)).2.2 = [105, 103, 101])
    ∧ (PriorityEventDispatcher.dispatch_event natKeyOps countBehavior 9
        (PriorityEventDispatcher.add_listener natKeyOps 9 2 5
          (PriorityEventDispatcher.add_listener natKeyOps 9 1 5 []))
        (fun _ => some 0)).2.2 = [1, 2] := by
  decide

/-- C4 witness: one registration order ([1, 5, 3] in that order) evaluated
concretely. -/
theorem C4_descending_priority_delivery_order_witness :
    (PriorityEventDispatcher.dispatch_event natKeyOps countBehavior 9
      ([(1, 101), (5, 105), (3, 103)].foldl (fun r ph =>
        PriorityEventDispatcher.add_listener natKeyOps 9 ph.2 ph.1 r) [])
      (fun _ => some 0)).2.2 = [105, 103, 101] :=
  C4_descending_priority_delivery_order.1 [(1, 101), (5, 105), (3, 103)]
    (by decide)

/-- C5: for each dispatcher variant, with key sequence `[a, h0, b]` where
the owner of `h0` has dropped it (`st h0 = none`) and `a`, `b` stay live
and continue: the dispatch never invokes `h0` (the trace is `[a, b]`) and
the key's entry shrinks by exactly the pruned handle, from three entries to
two; pruning is silent — dispatch returns its ordinary value, there is no
error channel. -/
theorem C5_dropped_listener_is_silently_pruned {K S : Type}
    (ko : KeyOps K) (k e : K) (a h0 b p1 p2 p3 : Nat) (sa sb : S)
    (f : Nat → K → S → S × Option SyncDispatcherRequest)
    (g : Nat → K → S → S × Option ParallelDispatcherRequest)
    (st : Nat → Option S)
    (heq : ko.beq k e = true) (hh : ko.hash k = ko.hash e)
    (hah : a ≠ h0) (hab : a ≠ b) (hhb : h0 ≠ b)
    (hsa : st a = some sa) (hdead : st h0 = none) (hsb : st b = some sb)
    (hra : (f a e sa).2 = none) (hrb : (f b e sb).2 = none)
    (hga : (g a e sa).2 = none) (hgb : (g b e sb).2 = none) :
    ((EventDispatcher.dispatch_event ko f e [(k, [a, h0, b])] st).2.2 = [a, b]
      ∧ (EventDispatcher.dispatch_event ko f e [(k, [a, h0, b])] st).1
        = [(k, [a, b])])
    ∧ ((PriorityEventDispatcher.dispatch_event ko f e
        [(k, [(p1, a), (p2, h0), (p3, b)])] st).2.2 = [a, b]
      ∧ (PriorityEventDispatcher.dispatch_event ko f e
        [(k, [(p1, a), (p2, h0), (p3, b)])] st).1 = [(k, [(p1, a), (p3, b)])])
    ∧ ((ParallelEventDispatcher.dispatch_event ko g e [(k, [a, h0, b])] st).2.2
        = [a, b]
      ∧ (ParallelEventDispatcher.dispatch_event ko g e [(k, [a, h0, b])] st).1
        = [(k, [a, b])]) := by
  have hha : h0 ≠ a := hah.symm
  have hba : b ≠ a := hab.symm
  have hbh : b ≠ h0 := hhb.symm
  refine ⟨⟨?_, ?_⟩, ⟨?_, ?_⟩, ⟨?_, ?_⟩⟩ <;>
    simp [EventDispatcher.dispatch_event, PriorityEventDispatcher.dispatch_event,
      ParallelEventDispatcher.dispatch_event, findEntry, updateEntry,
      EventDispatcher.deliver, PriorityEventDispatcher.deliver,
      ParallelEventDispatcher.deliver, ParallelEventDispatcher.keeps,
      updateStore, heq, hh, hsa, hdead, hsb, hra, hrb, hga, hgb,
      hha, hba, hbh]

/-- C5 witness: listeners `0` and `2` live, handle `1` dropped, at a
concrete `Nat` instance. -/
theorem C5_dropped_listener_is_silently_pruned_witness :
    ((EventDispatcher.dispatch_event natKeyOps countBehavior 1
        [(1, [0, 1, 2])] (fun h => if h = 1 then none else some 0)).2.2 = [0, 2]
      ∧ (EventDispatcher.dispatch_event natKeyOps countBehavior 1
        [(1, [0, 1, 2])] (fun h => if h = 1 then none else some 0)).1
        = [(1, [0, 2])])
    ∧ ((PriorityEventDispatcher.dispatch_event natKeyOps countBehavior 1
        [(1, [(9, 0), (8, 1), (7, 2)])]
        (fun h => if h = 1 then none else some 0)).2.2 = [0, 2]
      ∧ (PriorityEventDispatcher.dispatch_event natKeyOps countBehavior 1
        [(1, [(9, 0), (8, 1), (7, 2)])]
        (fun h => if h = 1 then none else some 0)).1
        = [(1, [(9, 0), (7, 2)])])
    ∧ ((ParallelEventDispatcher.dispatch_event natKeyOps countBehaviorPar 1
        [(1, [0, 1, 2])] (fun h => if h = 1 then none else some 0)).2.2 = [0, 2]
      ∧ (ParallelEventDispatcher.dispatch_event natKeyOps countBehaviorPar 1
        [(1, [0, 1, 2])] (fun h => if h = 1 then none else some 0)).1
        = [(1, [0, 2])]) :=
  C5_dropped_listener_is_silently_pruned natKeyOps 1 1 0 1 2 9 8 7 0 0
    countBehavior countBehaviorPar (fun h => if h = 1 then none else some 0)
    rfl rfl (by decide) (by decide) (by decide) rfl rfl rfl rfl rfl rfl rfl

/-- A store owning the two test listeners, handles `0` and `1`, both flag
pairs unset. -/
def tstore2 : Nat → Option TListenerState :=
  fun h => if h ≤ 1 then some ⟨false, false⟩ else none

/-- C7: two event instances that are equal under the key type's equality
(and hash alike, as the hash contract requires) resolve to the same
listener set in the registry; concretely, with the test's payload-ignoring
equality, the listener registered under `EventA 5` and `EventB 0` receives
`EventA 10` (setting only its `received_event_a` flag) and then
`EventB 10` (setting `received_event_b`), in all three dispatcher
variants. -/
theorem C7_key_equality_routes_to_same_listener_set {K V : Type}
    (ko : KeyOps K) (k1 k2 : K) (reg : List (K × V))
    (hh : ko.hash k1 = ko.hash k2)
    (hbeq : ∀ x, ko.beq x k1 = ko.beq x k2) :
    findEntry ko k1 reg = findEntry ko k2 reg
    ∧ ((EventDispatcher.dispatch_event tkeyops tOnEvent (.EventA 10)
        (EventDispatcher.add_listener tkeyops (.EventB 0) 0
          (EventDispatcher.add_listener tkeyops (.EventA 5) 0 []))
        tstore).2.1 0 = some ⟨true, false⟩
      ∧ (EventDispatcher.dispatch_event tkeyops tOnEvent (.EventB 10)
          (EventDispatcher.dispatch_event tkeyops tOnEvent (.EventA 10)
            (EventDispatcher.add_listener tkeyops (.EventB 0) 0
              (EventDispatcher.add_listener tkeyops (.EventA 5) 0 []))
            tstore).1
          (EventDispatcher.dispatch_event tkeyops tOnEvent (.EventA 10)
            (EventDispatcher.add_listener tkeyops (.EventB 0) 0
              (EventDispatcher.add_listener tkeyops (.EventA 5) 0 []))
            tstore).2.1).2.1 0 = some ⟨true, true⟩)
    ∧ ((PriorityEventDispatcher.dispatch_event tkeyops tOnEvent (.EventA 10)
        (PriorityEventDispatcher.add_listener tkeyops (.EventB 0) 0 4
          (PriorityEventDispatcher.add_listener tkeyops (.EventA 5) 0 6 []))
        tstore).2.1 0 = some ⟨true, false⟩)
    ∧ ((ParallelEventDispatcher.dispatch_event tkeyops tOnEventPar (.EventA 10)
        (ParallelEventDispatcher.add_listener tkeyops (.EventB 0) 0
          (ParallelEventDispatcher.add_listener tkeyops (.EventA 5) 0 []))
        tstore).2.1 0 = some ⟨true, false⟩) := by
  refine ⟨?_, ⟨by decide, by decide⟩, by decide, by decide⟩
  induction reg with
  | nil => rfl
  | cons p rest ih => simp [findEntry, hh, hbeq p.1, ih]

/-- C7 witness: the general routing conjunct at the payload-carrying test
key type, probing with two equal keys of different payloads. -/
theorem C7_key_equality_routes_to_same_listener_set_witness :
    findEntry tkeyops (.EventA 5) [(TEvent.EventA 1, [7])]
      = findEntry tkeyops (.EventA 99) [(TEvent.EventA 1, [7])] :=
  (C7_key_equality_routes_to_same_listener_set tkeyops (.EventA 5)
    (.EventA 99) [(TEvent.EventA 1, [7])] rfl
    (fun x => by cases x <;> rfl)).1

/-- C10: with the test's hash implementation, under which every key hashes
alike (the hasher is fed nothing), routing still depends only on the key
equality: for any payloads, registering listener `h1` under `EventA x` and
listener `h2` under `EventB y` keeps two distinct listener sets, lookups by
any same-variant probe resolve to the respective set, the two probes'
hashes being equal; concretely each dispatch delivers only to the set whose
key equals the dispatched event, in all three dispatcher variants. -/
theorem C10_routing_ignores_hash_quality :
    (∀ (x y : Int) (h1 h2 : Nat),
      EventDispatcher.add_listener tkeyops (.EventB y) h2
        (EventDispatcher.add_listener tkeyops (.EventA x) h1 [])
        = [(.EventA x, [h1]), (.EventB y, [h2])])
    ∧ (∀ (x y z : Int) (h1 h2 : Nat),
      findEntry tkeyops (.EventA z) [(TEvent.EventA x, [h1]), (.EventB y, [h2])]
        = some [h1]
      ∧ findEntry tkeyops (.EventB z) [(TEvent.EventA x, [h1]), (.EventB y, [h2])]
        = some [h2])
    ∧ tkeyops.hash (.EventA 7) = tkeyops.hash (.EventB 7)
    ∧ ((EventDispatcher.dispatch_event tkeyops tOnEvent (.EventA 7)
        (EventDispatcher.add_listener tkeyops (.EventB 0) 1
          (EventDispatcher.add_listener tkeyops (.EventA 5) 0 []))
        tstore2).2.2 = [0]
      ∧ (EventDispatcher.dispatch_event tkeyops tOnEvent (.EventB 7)
        (EventDispatcher.add_listener tkeyops (.EventB 0) 1
          (EventDispatcher.add_listener tkeyops (.EventA 5) 0 []))
        tstore2).2.2 = [1])
    ∧ ((PriorityEventDispatcher.dispatch_event tkeyops tOnEvent (.EventA 7)
        (PriorityEventDispatcher.add_listener tkeyops (.EventB 0) 1 4
          (PriorityEventDispatcher.add_listener tkeyops (.EventA 5) 0 6 []))
        tstore2).2.2 = [0]
      ∧ (PriorityEventDispatcher.dispatch_event tkeyops tOnEvent (.EventB 7)
        (PriorityEventDispatcher.add_listener tkeyops (.EventB 0) 1 4
          (PriorityEventDispatcher.add_listener tkeyops (.EventA 5) 0 6 []))
        tstore2).2.2 = [1])
    ∧ ((ParallelEventDispatcher.dispatch_event tkeyops tOnEventPar (.EventA 7)
        (ParallelEventDispatcher.add_listener tkeyops (.EventB 0) 1
          (ParallelEventDispatcher.add_listener tkeyops (.EventA 5) 0 []))
        tstore2).2.2 = [0]
      ∧ (ParallelEventDispatcher.dispatch_event tkeyops tOnEventPar (.EventB 7)
        (ParallelEventDispatcher.add_listener tkeyops (.EventB 0) 1
          (ParallelEventDispatcher.add_listener tkeyops (.EventA 5) 0 []))
        tstore2).2.2 = [1]) :=
  ⟨fun _ _ _ _ => rfl, fun _ _ _ _ _ => ⟨rfl, rfl⟩, rfl,
   ⟨by decide, by decide⟩, ⟨by decide, by decide⟩, ⟨by decide, by decide⟩⟩

/-- Replacing a found entry's value by itself leaves the registry
unchanged. -/
lemma updateEntry_found {K V : Type} (ko : KeyOps K) (k : K) :
    ∀ (reg : List (K × V)) (v : V), findEntry ko k reg = some v →
      updateEntry ko k (fun _ => v) reg = reg := by
  intro reg
  induction reg with
  | nil => intro v hv; simp [findEntry] at hv
  | cons p rest ih =>
    intro v hv
    by_cases hc : (ko.hash p.1 == ko.hash k && ko.beq p.1 k) = true
    · simp [findEntry, hc] at hv
      simp [updateEntry, hc, ← hv]
    · simp [findEntry, hc] at hv
      simp [updateEntry, hc, ih v hv]

/-- When every handle is live and every handler returns the continue
request, the sequential walk delivers to each handle once in order and
keeps the sequence intact. -/
lemma seq_deliver_all_continue {K S : Type}
    (f : Nat → K → S → S × Option SyncDispatcherRequest) (e : K)
    (hnone : ∀ h s, (f h e s).2 = none) :
    ∀ (hs : List Nat) (st : Nat → Option S),
      (∀ h ∈ hs, ∃ s, st h = some s) →
      (EventDispatcher.deliver f e hs st).1 = hs
      ∧ (EventDispatcher.deliver f e hs st).2.2 = hs := by
  intro hs
  induction hs with
  | nil => intro st _; simp [EventDispatcher.deliver]
  | cons h rest ih =>
    intro st hlive
    obtain ⟨s, hsh⟩ := hlive h (by simp)
    have hrest : ∀ h' ∈ rest, ∃ s', updateStore st h (f h e s).1 h' = some s' := by
      intro h' hm
      by_cases hh' : h' = h
      · exact ⟨(f h e s).1, by simp [updateStore, hh']⟩
      · simpa [updateStore, hh'] using hlive h' (by simp [hm])
    have hi := ih (updateStore st h (f h e s).1) hrest
    simp [EventDispatcher.deliver, hsh, hnone, hi.1, hi.2]

/-- The continue-request neutrality of the priority walk. -/
lemma prio_deliver_all_continue {K S : Type}
    (f : Nat → K → S → S × Option SyncDispatcherRequest) (e : K)
    (hnone : ∀ h s, (f h e s).2 = none) :
    ∀ (hs : List (Nat × Nat)) (st : Nat → Option S),
      (∀ q ∈ hs, ∃ s, st q.2 = some s) →
      (PriorityEventDispatcher.deliver f e hs st).1 = hs
      ∧ (PriorityEventDispatcher.deliver f e hs st).2.2 = hs.map Prod.snd := by
  intro hs
  induction hs with
  | nil => intro st _; simp [PriorityEventDispatcher.deliver]
  | cons q rest ih =>
    intro st hlive
    obtain ⟨s, hsh⟩ := hlive q (by simp)
    have hrest : ∀ q' ∈ rest, ∃ s', updateStore st q.2 (f q.2 e s).1 q'.2 = some s' := by
      intro q' hm
      by_cases hh' : q'.2 = q.2
      · exact ⟨(f q.2 e s).1, by simp [updateStore, hh']⟩
      · simpa [updateStore, hh'] using hlive q' (by simp [hm])
    have hi := ih (updateStore st q.2 (f q.2 e s).1) hrest
    simp [PriorityEventDispatcher.deliver, hsh, hnone, hi.1, hi.2]

/-- The continue-request neutrality of the parallel round: every live
handle is invoked and reports the continue request. -/
lemma par_deliver_all_continue {K S : Type}
    (g : Nat → K → S → S × Option ParallelDispatcherRequest) (e : K)
    (hnone : ∀ h s, (g h e s).2 = none) :
    ∀ (hs : List Nat) (st : Nat → Option S),
      (∀ h ∈ hs, ∃ s, st h = some s) →
      (ParallelEventDispatcher.deliver g e hs st).1
        = hs.map (fun h => (h, none)) := by
  intro hs
  induction hs with
  | nil => intro st _; simp [ParallelEventDispatcher.deliver]
  | cons h rest ih =>
    intro st hlive
    obtain ⟨s, hsh⟩ := hlive h (by simp)
    have hrest : ∀ h' ∈ rest, ∃ s', updateStore st h (g h e s).1 h' = some s' := by
      intro h' hm
      by_cases hh' : h' = h
      · exact ⟨(g h e s).1, by simp [updateStore, hh']⟩
      · simpa [updateStore, hh'] using hlive h' (by simp [hm])
    have hi := ih (updateStore st h (g h e s).1) hrest
    simp [ParallelEventDispatcher.deliver, hsh, hnone, hi]

/-- C9: the listener contract of the model is the single operation
`on_event`, a function of the event and the listener's own state returning
the next state and an `Option` request — each invocation passes the state
exclusively through this one call. When every registered listener is live
and returns `None` (continue), delivery is unaffected: every listener of
the key's sequence is still delivered to, in order, and every one remains
registered (the registry is returned unchanged) — in all three dispatcher
variants. -/
theorem C9_continue_request_leaves_delivery_unchanged {K S : Type}
    (ko : KeyOps K) (e : K)
    (f : Nat → K → S → S × Option SyncDispatcherRequest)
    (g : Nat → K → S → S × Option ParallelDispatcherRequest)
    (reg : List (K × List Nat)) (regP : List (K × List (Nat × Nat)))
    (hs : List Nat) (hsP : List (Nat × Nat)) (st : Nat → Option S)
    (hnone : ∀ h s, (f h e s).2 = none)
    (hnoneP : ∀ h s, (g h e s).2 = none)
    (hfind : findEntry ko e reg = some hs)
    (hfindP : findEntry ko e regP = some hsP)
    (hlive : ∀ h ∈ hs, ∃ s, st h = some s)
    (hliveP : ∀ q ∈ hsP, ∃ s, st q.2 = some s) :
    ((EventDispatcher.dispatch_event ko f e reg st).1 = reg
      ∧ (EventDispatcher.dispatch_event ko f e reg st).2.2 = hs)
    ∧ ((PriorityEventDispatcher.dispatch_event ko f e regP st).1 = regP
      ∧ (PriorityEventDispatcher.dispatch_event ko f e regP st).2.2
        = hsP.map Prod.snd)
    ∧ ((ParallelEventDispatcher.dispatch_event ko g e reg st).1 = reg
      ∧ (ParallelEventDispatcher.dispatch_event ko g e reg st).2.2 = hs) := by
  have hd := seq_deliver_all_continue f e hnone hs st hlive
  have hdP := prio_deliver_all_continue f e hnone hsP st hliveP
  have hdG := par_deliver_all_continue g e hnoneP hs st hlive
  refine ⟨⟨?_, ?_⟩, ⟨?_, ?_⟩, ⟨?_, ?_⟩⟩
  · simp only [EventDispatcher.dispatch_event, hfind, hd.1]
    exact updateEntry_found ko e reg hs hfind
  · simp only [EventDispatcher.dispatch_event, hfind, hd.2]
  · simp only [PriorityEventDispatcher.dispatch_event, hfindP, hdP.1]
    exact updateEntry_found ko e regP hsP hfindP
  · simp only [PriorityEventDispatcher.dispatch_event, hfindP, hdP.2]
  · simp only [ParallelEventDispatcher.dispatch_event, hfind, hdG]
    have hflt : ∀ l : List Nat,
        ((l.map fun h => ((h : Nat), (none : Option ParallelDispatcherRequest))).filter
          fun r => ParallelEventDispatcher.keeps r.2).map (·.1) = l := by
      intro l
      induction l with
      | nil => rfl
      | cons h t ih =>
        simp [ParallelEventDispatcher.keeps] at ih ⊢
        exact ih
    rw [hflt hs]
    exact updateEntry_found ko e reg hs hfind
  · simp only [ParallelEventDispatcher.dispatch_event, hfind, hdG]
    have hmm : ∀ l : List Nat,
        (l.map fun h => ((h : Nat), (none : Option ParallelDispatcherRequest))).map (·.1)
          = l := by
      intro l
      induction l with
      | nil => rfl
      | cons h t ih => simp [ih]
    exact hmm hs

/-- C9 witness: handles `0` and `2` under key `1`, every handler counting
and continuing, at the concrete `Nat` instance with an all-live store. -/
theorem C9_continue_request_leaves_delivery_unchanged_witness :
    ((EventDispatcher.dispatch_event natKeyOps countBehavior 1
        [(1, [0, 2])] (fun _ => some 0)).1 = [(1, [0, 2])]
      ∧ (EventDispatcher.dispatch_event natKeyOps countBehavior 1
        [(1, [0, 2])] (fun _ => some 0)).2.2 = [0, 2])
    ∧ ((PriorityEventDispatcher.dispatch_event natKeyOps countBehavior 1
        [(1, [(5, 0), (3, 2)])] (fun _ => some 0)).1 = [(1, [(5, 0), (3, 2)])]
      ∧ (PriorityEventDispatcher.dispatch_event natKeyOps countBehavior 1
        [(1, [(5, 0), (3, 2)])] (fun _ => some 0)).2.2
        = [(5, 0), (3, 2)].map Prod.snd)
    ∧ ((ParallelEventDispatcher.dispatch_event natKeyOps countBehaviorPar 1
        [(1, [0, 2])] (fun _ => some 0)).1 = [(1, [0, 2])]
      ∧ (ParallelEventDispatcher.dispatch_event natKeyOps countBehaviorPar 1
        [(1, [0, 2])] (fun _ => some 0)).2.2 = [0, 2]) :=
  C9_continue_request_leaves_delivery_unchanged natKeyOps 1
    countBehavior countBehaviorPar [(1, [0, 2])] [(1, [(5, 0), (3, 2)])]
    [0, 2] [(5, 0), (3, 2)] (fun _ => some 0)
    (fun _ _ => rfl) (fun _ _ => rfl) rfl rfl
    (fun _ _ => ⟨0, rfl⟩) (fun _ _ => ⟨0, rfl⟩)

end HeyListen
